import Mathlib

/-!
Shallow embedding of the expense-categorization subsystem of ExpenseTrade:
the training pipeline `load_and_train_model` (src/Main/pages/Expenses.py
lines 54-79, duplicated in src/FinanceTracker/Home.py lines 69-95 and
src/FinanceTracker/pages/Expenses.py lines 52-77), the description-to-category
prediction step of the expense form (src/Main/pages/Expenses.py lines 159-164),
and the artifact-loading page src/FinanceTracker/pages/Expense.py lines 16-18.

The scikit-learn and pandas calls the source makes are modelled by
executable Lean functions that keep the structure the claims depend on:
which inputs each stage receives, which random state it consumes, the
vocabulary/dimension bookkeeping of the vectorizer, the seeded train/test
split, bootstrap sampling of the forest, and the label provenance of
prediction.  Numeric weights are kept in ℕ (sklearn's logarithmic idf and
l2 normalisation are positive monotone rescalings that no verified claim
depends on; the idf here is the integer-rounded ratio (1+n)/(1+df)).
-/

set_option maxRecDepth 8000

deriving instance DecidableEq for Except

namespace ExpenseTrade

/-- One row of `categories_dataset.csv` as consumed by the pipeline:
a free-text `description` paired with its `category` label. -/
abbrev Row := String × String

/-- Tokenizer modelling `TfidfVectorizer()`'s default analyzer
(used at src/Main/pages/Expenses.py line 63): lowercase the text and keep
maximal alphanumeric runs of length at least two as tokens. -/
def tokenizeGo : List Char → List Char → List String
  | [], acc => if 2 ≤ acc.length then [acc.reverse.asString] else []
  | c :: cs, acc =>
    if c.isAlphanum then tokenizeGo cs (c.toLower :: acc)
    else (if 2 ≤ acc.length then [acc.reverse.asString] else []) ++ tokenizeGo cs []

/-- Tokenize a description string. -/
def tokenize (s : String) : List String := tokenizeGo s.toList []

/-- Lexicographic comparison on character codes, modelling the alphabetical
ordering scikit-learn gives the fitted vocabulary. -/
def lexLt : List Char → List Char → Bool
  | [], [] => false
  | [], _ :: _ => true
  | _ :: _, [] => false
  | a :: as, b :: bs =>
    if a.toNat < b.toNat then true
    else if b.toNat < a.toNat then false
    else lexLt as bs

/-- Insert a term into a sorted term list. -/
def insertTerm (s : String) : List String → List String
  | [] => [s]
  | t :: ts => if lexLt t.toList s.toList then t :: insertTerm s ts else s :: t :: ts

/-- Sort the vocabulary terms. -/
def sortTerms : List String → List String
  | [] => []
  | s :: ss => insertTerm s (sortTerms ss)

/-- The fitted state of `TfidfVectorizer` as used by the source: the number
of fitted documents and the fitted vocabulary, each term carrying its
document frequency. -/
structure TfidfModel where
  nDocs : Nat
  vocab : List (String × Nat)
  deriving DecidableEq

/-- Model of `TfidfVectorizer().fit` on the training descriptions
(src/Main/pages/Expenses.py line 64): build the sorted vocabulary of corpus
tokens together with each term's document frequency. -/
def tfidfFit (corpus : List String) : TfidfModel :=
  let docs := corpus.map tokenize
  let terms := sortTerms docs.flatten.dedup
  { nDocs := corpus.length
    vocab := terms.map fun t => (t, (docs.filter (fun dtoks => t ∈ dtoks)).length) }

/-- Model of the fitted vectorizer's `transform` on one description
(src/Main/pages/Expenses.py line 163): one component per fitted vocabulary
term, term frequency scaled by the inverse-document-frequency weight.
Tokens outside the fitted vocabulary index no component. -/
def tfidfTransform (v : TfidfModel) (d : String) : List Nat :=
  let toks := tokenize d
  v.vocab.map fun p => toks.count p.1 * ((1 + v.nDocs) / (1 + p.2))

/-- State-passing form of `transform`: scikit-learn's `transform` also hands
back the vectorizer object it was called on, unchanged. -/
def tfidfTransformS (v : TfidfModel) (d : String) : TfidfModel × List Nat :=
  (v, tfidfTransform v d)

/-- Dot product of two feature vectors. -/
def dot (a b : List Nat) : Nat := (List.zipWith (fun x y => x * y) a b).sum

/-- One member of the random forest ensemble: the bootstrap sample of
vectorized training rows it was grown from. -/
structure DTree where
  sample : List (List Nat × String)
  deriving DecidableEq

/-- The fitted `RandomForestClassifier` state: its list of trees. -/
structure Forest where
  trees : List DTree
  deriving DecidableEq

/-- Default `n_estimators` of `RandomForestClassifier()`. -/
def numTrees : Nat := 100

/-- Step of the pseudorandom stream modelling the numpy random state the
source leaves implicit (a linear congruential step). -/
def lcgNext (r : Nat) : Nat := (1103515245 * r + 12345) % 2147483648

/-- Fuelled seeded shuffle: repeatedly extract the pseudorandomly chosen
element of the remaining list. -/
def shuffleGo : Nat → Nat → List Nat → List Nat
  | 0, _, _ => []
  | fuel + 1, r, l =>
    if l.length = 0 then []
    else l.getD (r % l.length) 0 :: shuffleGo fuel (lcgNext r) (l.eraseIdx (r % l.length))

/-- Seeded pseudorandom permutation, modelling the shuffle
`train_test_split` performs with `random_state=42`. -/
def seededShuffle (seed : Nat) (l : List Nat) : List Nat := shuffleGo l.length seed l

/-- Model of `train_test_split(rows, test_size=0.2, random_state=seed)`
(src/Main/pages/Expenses.py line 67): permute the row indices with the
seeded shuffle, take the first ⌈0.2·n⌉ permuted rows as the held-out test
part and the remaining rows as the training part.  Returns
(train part, test part). -/
def trainTestSplit {α : Type} (seed : Nat) (rows : List α) : List α × List α :=
  let nTest := (rows.length + 4) / 5
  let perm := seededShuffle seed (List.range rows.length)
  ((perm.drop nTest).filterMap (fun i => rows[i]?),
   (perm.take nTest).filterMap (fun i => rows[i]?))

/-- Draw `k` bootstrap indices (with replacement) from `rows`, consuming the
pseudorandom stream; returns the sample and the advanced stream state. -/
def bootstrapGo {α : Type} (d : α) : Nat → Nat → List α → List α × Nat
  | 0, r, _ => ([], r)
  | k + 1, r, rows =>
    let rest := bootstrapGo d k (lcgNext r) rows
    (rows.getD (r % rows.length) d :: rest.1, rest.2)

/-- Grow `k` trees, each from a fresh bootstrap sample of the training rows,
threading the pseudorandom stream. -/
def forestFitGo {α : Type} (d : α) : Nat → Nat → List α → List (List α) × Nat
  | 0, r, _ => ([], r)
  | k + 1, r, rows =>
    let s := bootstrapGo d rows.length r rows
    let rest := forestFitGo d k s.2 rows
    (s.1 :: rest.1, rest.2)

/-- Default row used by the total bootstrap draw (never selected when the
training part is non-empty). -/
def dfltRow : List Nat × String := ([], "")

/-- Model of `RandomForestClassifier().fit(X_train, y_train)`
(src/Main/pages/Expenses.py lines 70-71): `RandomForestClassifier()` is
constructed without `random_state`, so fitting consumes the ambient
pseudorandom stream `r`; each of the `numTrees` trees is grown from a
bootstrap sample of the training rows.  Returns the fitted forest and the
advanced stream state. -/
def forestFit (r : Nat) (rows : List (List Nat × String)) : Forest × Nat :=
  let go := forestFitGo dfltRow numTrees r rows
  (⟨go.1.map DTree.mk⟩, go.2)

/-- Left fold selecting the first element attaining the maximal key. -/
def selectMax {α β : Type} [LinearOrder β] (f : α → β) (x : α) (l : List α) : α :=
  l.foldl (fun b a => if f b < f a then a else b) x

/-- A single tree's vote on a feature vector: the label of the sample row
most similar to the input (nearest by dot product, first row on ties) —
an executable model of a fitted CART tree's leaf lookup that keeps the
property the claims use: a tree only ever answers a label present in its
bootstrap sample. -/
def treePredict (t : DTree) (x : List Nat) : String :=
  match t.sample with
  | [] => ""
  | r :: rs => (selectMax (fun p => dot p.1 x) r rs).2

/-- Model of `model.predict(vec)[0]` (src/Main/pages/Expenses.py line 164):
majority vote of the ensemble, first-seen class on ties. -/
def forestPredict (m : Forest) (x : List Nat) : String :=
  let votes := m.trees.map fun t => treePredict t x
  match votes with
  | [] => ""
  | v :: vs => selectMax (fun c => votes.count c) v vs

/-- The file-system state the pipeline touches: the training CSV, the two
persisted artifact files, and whether writes succeed. -/
structure FS where
  csv : Option (List Row)
  vecArtifact : Option TfidfModel
  modelArtifact : Option Forest
  writable : Bool
  deriving DecidableEq

/-- Process state: file system, the `st.cache_resource` memo for
`load_and_train_model`, the ambient pseudorandom stream state, and a count
of training-file reads (the observable effect trace). -/
structure ProcState where
  fs : FS
  cache : Option (TfidfModel × Forest)
  rng : Nat
  csvReads : Nat
  deriving DecidableEq

/-- The ways a pipeline call can raise: `pd.read_csv` on a missing file,
`TfidfVectorizer` fitting an empty vocabulary, `model.fit` on an empty
training part, and `joblib.dump` on an unwritable location. -/
inductive PipeErr where
  | fileNotFound
  | emptyVocab
  | emptyTrainingSet
  | artifactWriteError
  deriving DecidableEq

/-- The `description` column of the loaded CSV (`X` at line 59). -/
def corpusOf (rows : List Row) : List String := rows.map Prod.fst

/-- The `category` column of the loaded CSV (`y` at line 60). -/
def labelsOf (rows : List Row) : List String := rows.map Prod.snd

/-- The vectorized dataset: each description transformed by the fitted
vectorizer, zipped with its label. -/
def vecRows (rows : List Row) : List (List Nat × String) :=
  ((corpusOf rows).map (tfidfTransform (tfidfFit (corpusOf rows)))).zip (labelsOf rows)

/-- `(X_train, y_train)` of the seeded split at line 67. -/
def trainPart (rows : List Row) : List (List Nat × String) :=
  (trainTestSplit 42 (vecRows rows)).1

/-- `(X_test, y_test)` of the seeded split at line 67 (held out, unused by
the fit). -/
def testPart (rows : List Row) : List (List Nat × String) :=
  (trainTestSplit 42 (vecRows rows)).2

/-- Model of `load_and_train_model` (src/Main/pages/Expenses.py lines
54-77) together with its `@st.cache_resource` decorator (line 54): on a
memo hit the cached pair is returned and nothing else happens; on a miss
the training CSV is read, the vectorizer fitted, the dataset split with
`random_state=42`, the forest fitted on the training part (consuming the
ambient random stream), both artifacts dumped, the memo filled, and the
fitted pair returned.  A raise at any stage propagates (`Except.error`). -/
def load_and_train_model (s : ProcState) :
    Except PipeErr ((TfidfModel × Forest) × ProcState) :=
  match s.cache with
  | some pair => .ok (pair, s)
  | none =>
    match s.fs.csv with
    | none => .error .fileNotFound
    | some rows =>
      let v := tfidfFit (corpusOf rows)
      if v.vocab = [] then .error .emptyVocab
      else if trainPart rows = [] then .error .emptyTrainingSet
      else
        let fitted := forestFit s.rng (trainPart rows)
        if s.fs.writable then
          .ok ((v, fitted.1),
            { fs := { s.fs with vecArtifact := some v, modelArtifact := some fitted.1 },
              cache := some (v, fitted.1),
              rng := fitted.2,
              csvReads := s.csvReads + 1 })
        else .error .artifactWriteError

/-- The prediction a fresh run of the pipeline makes on probe description
`d` (the sentinel "ERR" stands for a propagated exception). -/
def runPred (s : ProcState) (d : String) : String :=
  match load_and_train_model s with
  | .ok (pair, _) => forestPredict pair.2 (tfidfTransform pair.1 d)
  | .error _ => "ERR"

/-- The same prediction expressed directly from the file system and random
stream, used to factor the determinism argument. -/
def corePred (fs : FS) (r : Nat) (d : String) : String :=
  match fs.csv with
  | none => "ERR"
  | some rows =>
    if (tfidfFit (corpusOf rows)).vocab = [] then "ERR"
    else if trainPart rows = [] then "ERR"
    else if fs.writable then
      forestPredict (forestFit r (trainPart rows)).1
        (tfidfTransform (tfidfFit (corpusOf rows)) d)
    else "ERR"

/-- Model of the description-to-predicted-category step of the expense form
(src/Main/pages/Expenses.py lines 160-164): `predicted_category = ""`, then
`if description:` — Python truthiness, i.e. any non-empty string — the
description is transformed and predicted.  The boolean records whether the
vectorizer/model were invoked. -/
def predictedCategoryStep (v : TfidfModel) (m : Forest) (description : String) :
    String × Bool :=
  if description = "" then ("", false)
  else (forestPredict m (tfidfTransform v description), true)

/-- The ways the module-level artifact loading of
src/FinanceTracker/pages/Expense.py lines 16-18 can raise. -/
inductive LoadErr where
  | fileNotFound
  | notFitted
  deriving DecidableEq

/-- Model of the module initialisation of src/FinanceTracker/pages/Expense.py
lines 16-18: `joblib.load` both artifact files; a missing file raises
FileNotFoundError.  No training code exists on this page, so the state is
returned untouched. -/
def expensePageInit (s : ProcState) :
    Except LoadErr ((TfidfModel × Forest) × ProcState) :=
  match s.fs.vecArtifact, s.fs.modelArtifact with
  | some v, some m => .ok ((v, m), s)
  | _, _ => .error .fileNotFound

/-! Concrete states used to instantiate the theorems. -/

/-- A tiny concrete training file with three rows and three distinct
categories. -/
def rows0 : List Row := [("aa aa", "A"), ("bb bb", "B"), ("cc cc", "C")]

/-- File system holding the training file, no persisted artifacts, writable. -/
def fs0 : FS :=
  { csv := some rows0, vecArtifact := none, modelArtifact := none, writable := true }

/-- A fresh process over `fs0` whose ambient random stream starts at 0. -/
def s0 : ProcState := { fs := fs0, cache := none, rng := 0, csvReads := 0 }

/-- A fresh process over the same file system whose ambient random stream
starts at 1 instead. -/
def s1 : ProcState := { fs := fs0, cache := none, rng := 1, csvReads := 0 }

/-- The result of the first pipeline run on `s0` (defined totally; `s0`
succeeds, so the default is never used). -/
def run0 : (TfidfModel × Forest) × ProcState :=
  (load_and_train_model s0).toOption.getD ((⟨0, []⟩, ⟨[]⟩), s0)

/-- A distinguishable vectorizer artifact unequal to anything `rows0` trains. -/
def junkVec : TfidfModel := { nDocs := 7, vocab := [("zzzz", 1)] }

/-- A distinguishable model artifact. -/
def junkForest : Forest := { trees := [] }

/-- A fresh process whose artifact files are both present and loadable. -/
def sArt : ProcState :=
  { fs := { csv := some rows0, vecArtifact := some junkVec,
            modelArtifact := some junkForest, writable := true },
    cache := none, rng := 0, csvReads := 0 }

/-- A process whose memo already holds a pair. -/
def sHit : ProcState := { fs := fs0, cache := some (junkVec, junkForest), rng := 0, csvReads := 0 }

/-- A fresh process on a read-only file system. -/
def sRO : ProcState :=
  { fs := { csv := some rows0, vecArtifact := none, modelArtifact := none, writable := false },
    cache := none, rng := 0, csvReads := 0 }

/-- A process with exactly one of the two artifact files present. -/
def sOneArt : ProcState :=
  { fs := { csv := some rows0, vecArtifact := none,
            modelArtifact := some junkForest, writable := true },
    cache := none, rng := 0, csvReads := 0 }

/-! Helper lemmas. -/

/-- `selectMax` returns one of its candidates. -/
lemma selectMax_mem {α β : Type} [LinearOrder β] (f : α → β) (l : List α) (x : α) :
    selectMax f x l ∈ x :: l := by
  induction l generalizing x with
  | nil => simp [selectMax]
  | cons a as ih =>
    have hstep : selectMax f x (a :: as) = selectMax f (if f x < f a then a else x) as := rfl
    rw [hstep]
    rcases List.mem_cons.1 (ih (if f x < f a then a else x)) with h1 | h1
    · rw [h1]
      split
      · exact List.mem_cons_of_mem _ (List.mem_cons_self a as)
      · exact List.mem_cons_self x (a :: as)
    · exact List.mem_cons_of_mem _ (List.mem_cons_of_mem _ h1)

/-- A tree only ever votes a label present in its bootstrap sample. -/
lemma treePredict_mem (t : DTree) (x : List Nat) (h : t.sample ≠ []) :
    treePredict t x ∈ t.sample.map Prod.snd := by
  obtain ⟨r, rs, hs⟩ : ∃ r rs, t.sample = r :: rs := by
    cases hs : t.sample with
    | nil => exact absurd hs h
    | cons r rs => exact ⟨r, rs, rfl⟩
  simp only [treePredict, hs]
  exact List.mem_map_of_mem Prod.snd (selectMax_mem _ rs r)

/-- The forest's majority vote is one of its trees' votes. -/
lemma forestPredict_mem (m : Forest) (x : List Nat) (h : m.trees ≠ []) :
    forestPredict m x ∈ m.trees.map fun t => treePredict t x := by
  obtain ⟨t, ts, hs⟩ : ∃ t ts, m.trees = t :: ts := by
    cases hs : m.trees with
    | nil => exact absurd hs h
    | cons t ts => exact ⟨t, ts, rfl⟩
  simp only [forestPredict, hs, List.map_cons]
  exact selectMax_mem _ _ _

/-- A bootstrap draw from a non-empty list only selects members. -/
lemma bootstrapGo_mem {α : Type} (d : α) (k : Nat) :
    ∀ (r : Nat) (rows : List α), rows ≠ [] →
      ∀ x ∈ (bootstrapGo d k r rows).1, x ∈ rows := by
  induction k with
  | zero => intro r rows _ x hx; simp [bootstrapGo] at hx
  | succ k ih =>
    intro r rows h x hx
    simp only [bootstrapGo] at hx
    rcases List.mem_cons.1 hx with h1 | h1
    · subst h1
      rw [List.getD_eq_getElem rows d (Nat.mod_lt _ (List.length_pos.2 h))]
      exact List.getElem_mem _
    · exact ih (lcgNext r) rows h x h1

/-- A bootstrap sample has exactly the requested number of draws. -/
lemma bootstrapGo_length {α : Type} (d : α) (k : Nat) :
    ∀ (r : Nat) (rows : List α), (bootstrapGo d k r rows).1.length = k := by
  induction k with
  | zero => intro r rows; simp [bootstrapGo]
  | succ k ih => intro r rows; simp [bootstrapGo, ih (lcgNext r) rows]

/-- The forest grows exactly the requested number of trees. -/
lemma forestFitGo_length {α : Type} (d : α) (k : Nat) :
    ∀ (r : Nat) (rows : List α), (forestFitGo d k r rows).1.length = k := by
  induction k with
  | zero => intro r rows; simp [forestFitGo]
  | succ k ih => intro r rows; simp only [forestFitGo, List.length_cons, ih]

/-- Every grown sample only holds training rows. -/
lemma forestFitGo_mem {α : Type} (d : α) (k : Nat) :
    ∀ (r : Nat) (rows : List α), rows ≠ [] →
      ∀ smp ∈ (forestFitGo d k r rows).1, ∀ x ∈ smp, x ∈ rows := by
  induction k with
  | zero => intro r rows _ smp hsmp; simp [forestFitGo] at hsmp
  | succ k ih =>
    intro r rows h smp hsmp
    simp only [forestFitGo] at hsmp
    rcases List.mem_cons.1 hsmp with h1 | h1
    · subst h1
      exact fun x hx => bootstrapGo_mem d rows.length r rows h x hx
    · exact ih _ rows h smp h1

/-- Every grown sample has as many draws as there are training rows. -/
lemma forestFitGo_sample_length {α : Type} (d : α) (k : Nat) :
    ∀ (r : Nat) (rows : List α),
      ∀ smp ∈ (forestFitGo d k r rows).1, smp.length = rows.length := by
  induction k with
  | zero => intro r rows smp hsmp; simp [forestFitGo] at hsmp
  | succ k ih =>
    intro r rows smp hsmp
    simp only [forestFitGo] at hsmp
    rcases List.mem_cons.1 hsmp with h1 | h1
    · subst h1; exact bootstrapGo_length d rows.length r rows
    · exact ih _ rows smp h1

/-- Label provenance of the fitted forest: on a non-empty training part the
prediction is always a label occurring among the training rows. -/
lemma forestFit_predict_mem (r : Nat) (rows : List (List Nat × String))
    (h : rows ≠ []) (x : List Nat) :
    forestPredict (forestFit r rows).1 x ∈ rows.map Prod.snd := by
  have htrees : (forestFit r rows).1.trees ≠ [] := by
    intro hnil
    have hlen : (forestFit r rows).1.trees.length = numTrees := by
      simp [forestFit, forestFitGo_length]
    rw [hnil] at hlen
    simp [numTrees] at hlen
  obtain ⟨t, htmem, hteq⟩ := List.mem_map.1 (forestPredict_mem (forestFit r rows).1 x htrees)
  have htrees2 : (forestFit r rows).1.trees =
      (forestFitGo dfltRow numTrees r rows).1.map DTree.mk := rfl
  rw [htrees2] at htmem
  obtain ⟨smp, hsmp, rfl⟩ := List.mem_map.1 htmem
  have hslen : smp.length = rows.length :=
    forestFitGo_sample_length dfltRow numTrees r rows smp hsmp
  have hsne : smp ≠ [] := by
    intro h0
    rw [h0] at hslen
    exact h (List.length_eq_zero.1 hslen.symm)
  have hv := treePredict_mem (DTree.mk smp) x hsne
  rw [← hteq]
  obtain ⟨rv, hrmem, hreq⟩ := List.mem_map.1 hv
  exact hreq ▸ List.mem_map_of_mem Prod.snd
    (forestFitGo_mem dfltRow numTrees r rows h smp hsmp rv hrmem)

/-- The fuelled shuffle of a list within fuel keeps the length. -/
lemma shuffleGo_length (fuel : Nat) :
    ∀ (r : Nat) (l : List Nat), l.length ≤ fuel →
      (shuffleGo fuel r l).length = l.length := by
  induction fuel with
  | zero => intro r l h; simp only [shuffleGo, List.length_nil]; omega
  | succ fuel ih =>
    intro r l h
    by_cases h0 : l.length = 0
    · simp [shuffleGo, h0]
    · have hlt : r % l.length < l.length := Nat.mod_lt _ (Nat.pos_of_ne_zero h0)
      have he : (l.eraseIdx (r % l.length)).length = l.length - 1 := by
        rw [List.length_eraseIdx, if_pos hlt]
      simp only [shuffleGo, if_neg h0, List.length_cons]
      rw [ih (lcgNext r) _ (by omega)]
      omega

/-- The fuelled shuffle only emits members. -/
lemma shuffleGo_mem (fuel : Nat) :
    ∀ (r : Nat) (l : List Nat), ∀ x ∈ shuffleGo fuel r l, x ∈ l := by
  induction fuel with
  | zero => intro r l x hx; simp [shuffleGo] at hx
  | succ fuel ih =>
    intro r l x hx
    by_cases h0 : l.length = 0
    · simp [shuffleGo, h0] at hx
    · simp only [shuffleGo, if_neg h0] at hx
      rcases List.mem_cons.1 hx with h1 | h1
      · subst h1
        rw [List.getD_eq_getElem l 0 (Nat.mod_lt _ (Nat.pos_of_ne_zero h0))]
        exact List.getElem_mem _
      · exact List.eraseIdx_subset _ _ (ih (lcgNext r) _ x h1)

/-- The seeded shuffle is length preserving. -/
lemma seededShuffle_length (seed : Nat) (l : List Nat) :
    (seededShuffle seed l).length = l.length :=
  shuffleGo_length l.length seed l (le_refl _)

/-- The seeded shuffle only emits members. -/
lemma seededShuffle_mem (seed : Nat) (l : List Nat) :
    ∀ x ∈ seededShuffle seed l, x ∈ l :=
  shuffleGo_mem l.length seed l

/-- Indexing a row list by in-range indices keeps the index count. -/
lemma filterMap_index_length {α : Type} (rows : List α) (idx : List Nat)
    (h : ∀ i ∈ idx, i < rows.length) :
    (idx.filterMap (fun i => rows[i]?)).length = idx.length := by
  induction idx with
  | nil => simp
  | cons i is ih =>
    have hi : i < rows.length := h i (List.mem_cons_self i is)
    simp [List.filterMap_cons, List.getElem?_eq_getElem hi,
      ih (fun j hj => h j (List.mem_cons_of_mem _ hj))]

/-- Indexing a row list only produces rows. -/
lemma filterMap_index_mem {α : Type} (rows : List α) (idx : List Nat) :
    ∀ x ∈ idx.filterMap (fun i => rows[i]?), x ∈ rows := by
  intro x hx
  obtain ⟨i, _, hi⟩ := List.mem_filterMap.1 hx
  obtain ⟨hlt, rfl⟩ := List.getElem?_eq_some.1 hi
  exact List.getElem_mem _

/-- The training part of the split only holds dataset rows. -/
lemma trainTestSplit_mem {α : Type} (seed : Nat) (rows : List α) :
    ∀ x ∈ (trainTestSplit seed rows).1, x ∈ rows :=
  fun x hx => filterMap_index_mem rows _ x hx

/-- Sizes of the split: the held-out part has ⌈0.2·n⌉ rows and the training
part the remaining rows. -/
lemma trainTestSplit_sizes {α : Type} (seed : Nat) (rows : List α) :
    (trainTestSplit seed rows).1.length = rows.length - (rows.length + 4) / 5 ∧
    (trainTestSplit seed rows).2.length = (rows.length + 4) / 5 := by
  have hpl : (seededShuffle seed (List.range rows.length)).length = rows.length := by
    rw [seededShuffle_length, List.length_range]
  have hmem : ∀ i ∈ seededShuffle seed (List.range rows.length), i < rows.length := by
    intro i hi
    have hr := seededShuffle_mem seed _ i hi
    rwa [List.mem_range] at hr
  have hTle : (rows.length + 4) / 5 ≤ rows.length := by omega
  constructor
  · simp only [trainTestSplit]
    rw [filterMap_index_length rows _ (fun i hi => hmem i (List.mem_of_mem_drop hi)),
      List.length_drop, hpl]
  · simp only [trainTestSplit]
    rw [filterMap_index_length rows _ (fun i hi => hmem i (List.mem_of_mem_take hi)),
      List.length_take, hpl]
    exact Nat.min_eq_left hTle

/-- The vectorized dataset has one row per CSV row. -/
lemma vecRows_length (rows : List Row) : (vecRows rows).length = rows.length := by
  simp [vecRows, corpusOf, labelsOf]

/-- A memo hit returns the cached pair and leaves the process untouched. -/
lemma load_hit (s : ProcState) (p : TfidfModel × Forest) (hc : s.cache = some p) :
    load_and_train_model s = .ok (p, s) := by
  simp [load_and_train_model, hc]

/-- Anatomy of a successful memo-miss run: the returned pair is the freshly
fitted one, the training part was non-empty, the file system was writable,
and the next state holds the overwritten artifacts, the filled memo, the
advanced random stream and one more CSV read. -/
lemma load_miss_ok (s : ProcState) (rows : List Row)
    (pair : TfidfModel × Forest) (s₂ : ProcState)
    (hc : s.cache = none) (hcsv : s.fs.csv = some rows)
    (h : load_and_train_model s = .ok (pair, s₂)) :
    pair.1 = tfidfFit (corpusOf rows) ∧
    pair.2 = (forestFit s.rng (trainPart rows)).1 ∧
    trainPart rows ≠ [] ∧
    s.fs.writable = true ∧
    s₂ = { fs := { s.fs with vecArtifact := some pair.1, modelArtifact := some pair.2 },
           cache := some pair,
           rng := (forestFit s.rng (trainPart rows)).2,
           csvReads := s.csvReads + 1 } := by
  by_cases h1 : (tfidfFit (corpusOf rows)).vocab = []
  · simp [load_and_train_model, hc, hcsv, h1] at h
  · by_cases h2 : trainPart rows = []
    · simp [load_and_train_model, hc, hcsv, h1, h2] at h
    · by_cases h3 : s.fs.writable = true
      · simp only [load_and_train_model, hc, hcsv, h1, h2, h3, if_neg, if_pos,
          ite_true, ite_false, if_true, if_false] at h
        simp only [Except.ok.injEq, Prod.mk.injEq] at h
        obtain ⟨hp, hs⟩ := h
        subst hp
        subst hs
        exact ⟨rfl, rfl, h2, h3, by simp [hcsv, h3]⟩
      · simp [load_and_train_model, hc, hcsv, h1, h2, h3] at h

/-- A successful call leaves the memo filled with the returned pair. -/
lemma load_ok_cache (s : ProcState) (pair : TfidfModel × Forest) (s₂ : ProcState)
    (h : load_and_train_model s = .ok (pair, s₂)) : s₂.cache = some pair := by
  cases hc : s.cache with
  | some p =>
    rw [load_hit s p hc] at h
    simp only [Except.ok.injEq, Prod.mk.injEq] at h
    obtain ⟨hp, hs⟩ := h
    subst hp
    subst hs
    exact hc
  | none =>
    cases hcsv : s.fs.csv with
    | none => simp [load_and_train_model, hc, hcsv] at h
    | some rows =>
      obtain ⟨_, _, _, _, h5⟩ := load_miss_ok s rows pair s₂ hc hcsv h
      rw [h5]

/-- The prediction of a successful freshly trained run is a label of the
training part of the split. -/
lemma pipeline_pred_mem_trainLabels (s : ProcState) (rows : List Row)
    (pair : TfidfModel × Forest) (s₂ : ProcState)
    (hc : s.cache = none) (hcsv : s.fs.csv = some rows)
    (h : load_and_train_model s = .ok (pair, s₂)) (d : String) :
    forestPredict pair.2 (tfidfTransform pair.1 d) ∈ (trainPart rows).map Prod.snd := by
  obtain ⟨_, h2, h3, _, _⟩ := load_miss_ok s rows pair s₂ hc hcsv h
  rw [h2]
  exact forestFit_predict_mem s.rng (trainPart rows) h3 _

/-- On an empty memo the run prediction is a function of the file system and
the ambient random stream alone. -/
lemma runPred_eq_corePred (s : ProcState) (d : String) (hc : s.cache = none) :
    runPred s d = corePred s.fs s.rng d := by
  simp only [runPred, load_and_train_model, corePred, hc]
  cases hcsv : s.fs.csv with
  | none => simp
  | some rows =>
    by_cases h1 : (tfidfFit (corpusOf rows)).vocab = []
    · simp [h1]
    · by_cases h2 : trainPart rows = []
      · simp [h1, h2]
      · by_cases h3 : s.fs.writable = true
        · simp [h1, h2, h3]
        · simp [h1, h2, h3]

/-! Claim theorems. -/

/-- C1 (counterexample): with both artifact files present and loadable and
the memo empty, `load_and_train_model` does not deserialize and return the
persisted pair: it re-reads the training CSV (the read count increments)
and returns a freshly fitted vectorizer different from the persisted one. -/
theorem c1_counterexample :
    sArt.fs.vecArtifact = some junkVec ∧
    sArt.fs.modelArtifact = some junkForest ∧
    (load_and_train_model sArt).toOption.map (fun p => p.1.1) =
      some (tfidfFit (corpusOf rows0)) ∧
    tfidfFit (corpusOf rows0) ≠ junkVec ∧
    (load_and_train_model sArt).toOption.map (fun p => p.2.csvReads) = some 1 := by
  decide

/-- C1 (amended): `load_and_train_model` never checks for or loads the
persisted artifact pair; retraining is skipped only through the in-process
`st.cache_resource` memo.  On a memo hit the memoized pair is returned with
no file access; on a memo miss a successful call always reads the CSV
(read count increments), fits both stages afresh, and overwrites both
artifact files with the freshly fitted pair. -/
theorem c1_amended_no_artifact_check :
    (∀ (s : ProcState) (p : TfidfModel × Forest), s.cache = some p →
      load_and_train_model s = .ok (p, s)) ∧
    (∀ (s : ProcState) (rows : List Row) (pair : TfidfModel × Forest) (s₂ : ProcState),
      s.cache = none → s.fs.csv = some rows →
      load_and_train_model s = .ok (pair, s₂) →
      pair.1 = tfidfFit (corpusOf rows) ∧
      pair.2 = (forestFit s.rng (trainPart rows)).1 ∧
      s₂.csvReads = s.csvReads + 1 ∧
      s₂.fs.vecArtifact = some pair.1 ∧
      s₂.fs.modelArtifact = some pair.2) := by
  constructor
  · exact fun s p hc => load_hit s p hc
  · intro s rows pair s₂ hc hcsv h
    obtain ⟨h1, h2, _, _, h5⟩ := load_miss_ok s rows pair s₂ hc hcsv h
    exact ⟨h1, h2, by rw [h5], by rw [h5], by rw [h5]⟩

/-- C1 (witness): the amended claim instantiated — a memo hit returns the
cached junk pair untouched, and the fresh run on `s0` increments the read
count. -/
theorem c1_witness :
    load_and_train_model sHit = .ok ((junkVec, junkForest), sHit) ∧
    run0.2.csvReads = s0.csvReads + 1 := by
  refine ⟨c1_amended_no_artifact_check.1 sHit (junkVec, junkForest) rfl, ?_⟩
  exact (c1_amended_no_artifact_check.2 s0 rows0 run0.1 run0.2 rfl rfl (by rfl)).2.2.1

/-- C2 (counterexample): two fresh runs over the identical training file and
the identical configured split seed, differing only in the ambient random
state consumed by the unseeded `RandomForestClassifier()`, predict different
labels for the same probe description. -/
theorem c2_counterexample :
    s0.fs = s1.fs ∧ s0.cache = none ∧ s1.cache = none ∧
    runPred s0 "zz zz" ≠ runPred s1 "zz zz" := by
  decide

/-- C2 (amended): training is deterministic in the training file, the
configured split seed and the ambient random state together: the
`train_test_split` seed is fixed (42), but `RandomForestClassifier()` is
constructed without a seed and consumes the ambient random state, so two
runs are guaranteed identical only when that state also coincides. -/
theorem c2_amended_deterministic_given_rng :
    ∀ (s t : ProcState) (d : String), s.cache = none → t.cache = none →
      s.fs = t.fs → s.rng = t.rng → runPred s d = runPred t d := by
  intro s t d hs ht hfs hrng
  rw [runPred_eq_corePred s d hs, runPred_eq_corePred t d ht, hfs, hrng]

/-- C2 (witness): the amended determinism instantiated — two fresh processes
with the same file system and the same ambient random state (differing in
the unrelated read counter) agree on the probe. -/
theorem c2_witness :
    runPred s0 "zz zz" =
      runPred { fs := fs0, cache := none, rng := 0, csvReads := 7 } "zz zz" :=
  c2_amended_deterministic_given_rng s0
    { fs := fs0, cache := none, rng := 0, csvReads := 7 } "zz zz" rfl rfl rfl rfl

/-- C3 (counterexample): a whitespace-only description such as "   " is
truthy in Python, so the expense form does invoke the vectorizer and the
classifier on it and shows a genuine label, not the NoPrediction
sentinel. -/
theorem c3_counterexample :
    "   " ≠ "" ∧
    (predictedCategoryStep run0.1.1 run0.1.2 "   ").2 = true ∧
    (predictedCategoryStep run0.1.1 run0.1.2 "   ").1 ≠ "" := by
  decide

/-- C3 (amended): the form returns the sentinel "" without invoking the
model exactly when the description is the empty string; every non-empty
description — including blank ones such as "   " — is transformed and
predicted, returning exactly one label string. -/
theorem c3_amended_truthiness_guard :
    ∀ (v : TfidfModel) (m : Forest) (d : String),
      (d = "" → predictedCategoryStep v m d = ("", false)) ∧
      (d ≠ "" → predictedCategoryStep v m d =
        (forestPredict m (tfidfTransform v d), true)) := by
  intro v m d
  constructor
  · intro h
    simp [predictedCategoryStep, h]
  · intro h
    simp [predictedCategoryStep, h]

/-- C3 (witness): the amended guard instantiated on the fitted pair of the
concrete run, at the empty and at a blank description. -/
theorem c3_witness :
    predictedCategoryStep run0.1.1 run0.1.2 "" = ("", false) ∧
    predictedCategoryStep run0.1.1 run0.1.2 "   " =
      (forestPredict run0.1.2 (tfidfTransform run0.1.1 "   "), true) :=
  ⟨(c3_amended_truthiness_guard run0.1.1 run0.1.2 "").1 rfl,
   (c3_amended_truthiness_guard run0.1.1 run0.1.2 "   ").2 (by decide)⟩

/-- C4: for every non-empty training set with at least two distinct
categories, a successful run of the training pipeline yields a model whose
prediction for any description is one of the category strings observed in
the training data (LabelSet closure). -/
theorem c4_labelset_closure :
    ∀ (s : ProcState) (rows : List Row) (pair : TfidfModel × Forest)
      (s₂ : ProcState) (d : String),
      rows ≠ [] → 2 ≤ (labelsOf rows).dedup.length →
      s.cache = none → s.fs.csv = some rows →
      load_and_train_model s = .ok (pair, s₂) →
      forestPredict pair.2 (tfidfTransform pair.1 d) ∈ labelsOf rows := by
  intro s rows pair s₂ d _ _ hc hcsv h
  have hm := pipeline_pred_mem_trainLabels s rows pair s₂ hc hcsv h d
  obtain ⟨⟨vec, lab⟩, hmem, rfl⟩ := List.mem_map.1 hm
  exact (List.of_mem_zip (trainTestSplit_mem 42 (vecRows rows) _ hmem)).2

/-- C4 (witness): the closure property instantiated on the concrete run. -/
theorem c4_witness :
    rows0 ≠ [] ∧ 2 ≤ (labelsOf rows0).dedup.length ∧
    forestPredict run0.1.2 (tfidfTransform run0.1.1 "grocery shopping") ∈ labelsOf rows0 := by
  refine ⟨by decide, by decide, ?_⟩
  exact c4_labelset_closure s0 rows0 run0.1 run0.2 "grocery shopping"
    (by decide) (by decide) rfl rfl (by rfl)

/-- C5: calling the pipeline twice in the same process is memoized: a second
call after a successful one returns the very same (extractor, classifier)
pair — hence identical predictions for identical inputs — and the very same
process state, so the training file is not re-read and nothing is
re-fitted. -/
theorem c5_memoized_idempotent :
    ∀ (s : ProcState) (pair : TfidfModel × Forest) (s₂ : ProcState),
      load_and_train_model s = .ok (pair, s₂) →
      load_and_train_model s₂ = .ok (pair, s₂) :=
  fun s pair s₂ h => load_hit s₂ pair (load_ok_cache s pair s₂ h)

/-- C5 (witness): the memoization instantiated on the concrete run. -/
theorem c5_witness : load_and_train_model run0.2 = .ok (run0.1, run0.2) :=
  c5_memoized_idempotent s0 run0.1 run0.2 (by rfl)

/-- C6 (counterexample): with no fitted pair anywhere and no artifact files,
the artifact-loading page raises FileNotFoundError from `joblib.load` — not
NotFittedError — and does not trigger training; no label is produced. -/
theorem c6_counterexample :
    s0.fs.vecArtifact = none ∧ s0.fs.modelArtifact = none ∧
    expensePageInit s0 = .error .fileNotFound ∧
    LoadErr.fileNotFound ≠ LoadErr.notFitted ∧
    (expensePageInit s0).toOption = none := by
  decide

/-- C6 (amended): if either artifact file is missing, the module-level
`joblib.load` of the Expense page raises a file-not-found error before any
prediction can run; no training is triggered and no label (wrong or
otherwise) is ever returned. -/
theorem c6_amended_missing_artifact_raises :
    ∀ s : ProcState, s.fs.vecArtifact = none ∨ s.fs.modelArtifact = none →
      expensePageInit s = .error .fileNotFound := by
  intro s h
  cases hv : s.fs.vecArtifact with
  | none => simp [expensePageInit, hv]
  | some v =>
    cases hm : s.fs.modelArtifact with
    | none => simp [expensePageInit, hv, hm]
    | some m => rcases h with h | h <;> simp_all

/-- C6 (witness): the amended behaviour instantiated at a state with only
one artifact present. -/
theorem c6_witness : expensePageInit sOneArt = .error .fileNotFound :=
  c6_amended_missing_artifact_raises sOneArt (Or.inl rfl)

/-- C7 (counterexample): on a read-only file system a fresh training run
does not return the fitted in-memory pair with a warning: the `joblib.dump`
failure propagates and the whole call aborts with an error. -/
theorem c7_counterexample :
    sRO.fs.writable = false ∧
    load_and_train_model sRO = .error .artifactWriteError := by
  decide

/-- C7 (amended): when writing the artifacts fails, the exception propagates
out of `load_and_train_model`: the call returns no pair (there is no
warning-and-continue path in the code). -/
theorem c7_amended_write_failure_aborts :
    ∀ (s : ProcState) (rows : List Row), s.cache = none → s.fs.csv = some rows →
      (tfidfFit (corpusOf rows)).vocab ≠ [] → trainPart rows ≠ [] →
      s.fs.writable = false →
      load_and_train_model s = .error .artifactWriteError := by
  intro s rows hc hcsv h1 h2 h3
  simp [load_and_train_model, hc, hcsv, h1, h2, h3]

/-- C7 (witness): the amended abort behaviour instantiated on the concrete
read-only state. -/
theorem c7_witness :
    trainPart rows0 ≠ [] ∧ load_and_train_model sRO = .error .artifactWriteError := by
  refine ⟨by decide, ?_⟩
  exact c7_amended_write_failure_aborts sRO rows0 rfl rfl (by decide) (by decide) rfl

/-- C8: a successful fresh run splits the vectorized rows with the fixed
seed into a held-out part of ⌈0.2·n⌉ rows and a training part of the
remaining rows, and the classifier is fitted from the training part only:
every bootstrap row of every tree comes from the training part. -/
theorem c8_split_sizes_and_fit_provenance :
    ∀ (s : ProcState) (rows : List Row) (pair : TfidfModel × Forest) (s₂ : ProcState),
      s.cache = none → s.fs.csv = some rows →
      load_and_train_model s = .ok (pair, s₂) →
      (trainPart rows).length = rows.length - (rows.length + 4) / 5 ∧
      (testPart rows).length = (rows.length + 4) / 5 ∧
      pair.2 = (forestFit s.rng (trainPart rows)).1 ∧
      ∀ t ∈ pair.2.trees, ∀ rv ∈ t.sample, rv ∈ trainPart rows := by
  intro s rows pair s₂ hc hcsv h
  obtain ⟨_, h2, h3, _, _⟩ := load_miss_ok s rows pair s₂ hc hcsv h
  have hsz := trainTestSplit_sizes 42 (vecRows rows)
  have hvl := vecRows_length rows
  refine ⟨?_, ?_, h2, ?_⟩
  · rw [trainPart, hsz.1, hvl]
  · rw [testPart, hsz.2, hvl]
  · rw [h2]
    intro t ht rv hrv
    have ht2 : t ∈ (forestFitGo dfltRow numTrees s.rng (trainPart rows)).1.map DTree.mk := ht
    obtain ⟨smp, hsmp, rfl⟩ := List.mem_map.1 ht2
    exact forestFitGo_mem dfltRow numTrees s.rng (trainPart rows) h3 smp hsmp rv hrv

/-- C8 (witness): the split sizes and fit provenance instantiated on the
concrete run: 3 rows split into 2 training and 1 held-out rows. -/
theorem c8_witness :
    (trainPart rows0).length = rows0.length - (rows0.length + 4) / 5 ∧
    (testPart rows0).length = (rows0.length + 4) / 5 ∧
    run0.1.2 = (forestFit s0.rng (trainPart rows0)).1 ∧
    ∀ t ∈ run0.1.2.trees, ∀ rv ∈ t.sample, rv ∈ trainPart rows0 :=
  c8_split_sizes_and_fit_provenance s0 rows0 run0.1 run0.2 rfl rfl (by rfl)

/-- C9: transforming with a fitted extractor produces a vector in the fitted
space (one component per vocabulary entry), every token absent from the
fitted vocabulary contributes zero weight (a fully out-of-vocabulary
description maps to the zero vector), and transforming hands the extractor
state back unchanged. -/
theorem c9_transform_dimension_oov_frame :
    ∀ (corpus : List String) (v : TfidfModel) (d : String), v = tfidfFit corpus →
      (tfidfTransform v d).length = v.vocab.length ∧
      ((∀ t ∈ tokenize d, t ∉ v.vocab.map Prod.fst) →
        tfidfTransform v d = List.replicate v.vocab.length 0) ∧
      (tfidfTransformS v d).1 = v := by
  intro corpus v d _
  refine ⟨by simp [tfidfTransform], ?_, rfl⟩
  intro h
  rw [List.eq_replicate_iff]
  refine ⟨by simp [tfidfTransform], ?_⟩
  intro b hb
  simp only [tfidfTransform, List.mem_map] at hb
  obtain ⟨⟨t, df⟩, hmem, rfl⟩ := hb
  have ht : t ∉ tokenize d := fun hc => h t hc (List.mem_map_of_mem Prod.fst hmem)
  simp [List.count_eq_zero.2 ht]

/-- C9 (witness): the transform properties instantiated on the vectorizer
fitted from the concrete corpus and a fully out-of-vocabulary probe. -/
theorem c9_witness :
    (tfidfTransform (tfidfFit (corpusOf rows0)) "qq qq").length =
      (tfidfFit (corpusOf rows0)).vocab.length ∧
    tfidfTransform (tfidfFit (corpusOf rows0)) "qq qq" =
      List.replicate (tfidfFit (corpusOf rows0)).vocab.length 0 := by
  have h := c9_transform_dimension_oov_frame (corpusOf rows0)
    (tfidfFit (corpusOf rows0)) "qq qq" rfl
  exact ⟨h.1, h.2.1 (by decide)⟩

/-- C10: the label predicted after a successful fresh run always belongs to
the categories present in the training part selected by the seeded split;
a category confined to the held-out part can never be returned. -/
theorem c10_prediction_confined_to_train_subset :
    ∀ (s : ProcState) (rows : List Row) (pair : TfidfModel × Forest)
      (s₂ : ProcState) (d : String),
      s.cache = none → s.fs.csv = some rows →
      load_and_train_model s = .ok (pair, s₂) →
      forestPredict pair.2 (tfidfTransform pair.1 d) ∈ (trainPart rows).map Prod.snd ∧
      ∀ c : String, c ∉ (trainPart rows).map Prod.snd →
        forestPredict pair.2 (tfidfTransform pair.1 d) ≠ c := by
  intro s rows pair s₂ d hc hcsv h
  have hm := pipeline_pred_mem_trainLabels s rows pair s₂ hc hcsv h d
  exact ⟨hm, fun c hcnot heq => hcnot (heq ▸ hm)⟩

/-- C10 (witness): on the concrete run the category "A" lies in the training
data's LabelSet but only in held-out rows, and indeed can never be
predicted. -/
theorem c10_witness :
    "A" ∈ labelsOf rows0 ∧ "A" ∉ (trainPart rows0).map Prod.snd ∧
    forestPredict run0.1.2 (tfidfTransform run0.1.1 "zz zz") ∈
      (trainPart rows0).map Prod.snd ∧
    forestPredict run0.1.2 (tfidfTransform run0.1.1 "zz zz") ≠ "A" := by
  have h := c10_prediction_confined_to_train_subset s0 rows0 run0.1 run0.2 "zz zz"
    rfl rfl (by rfl)
  exact ⟨by decide, by decide, h.1, h.2 "A" (by decide)⟩

end ExpenseTrade
